import Mathlib

/-!
Verification of the `freesp` overlay client (`src/R6/bone.client.ts`).

The development shallowly embeds the parts of the source the claims are
about:

* `Bin` — the resource bin (`class Bin`, lines 13–65): a singly linked
  list of nodes held through `head`/`tail` pointers.  The node heap is
  modelled as a list indexed by allocation order; `next` pointers are
  indices into that heap.  Release of an item is abstracted by a
  `fails` oracle saying whether the kind-appropriate release action
  (call / Disconnect / task.cancel / destroy) raises; `destroy` returns
  the sequence of items whose release action was invoked, in order,
  together with whether an error escaped and the updated bin.
* `updateLineFromPoints` (lines 91–100) and `ESP.render`
  (lines 378–488) — over `ℝ`, with the camera projection and the
  attachments' world positions as inputs.
* `ESP.constructPoints` (lines 179–215) and `ESP.constructBones`
  (lines 217–288) — over `ℚ`, as functions from the body-part sizes to
  the attachment offsets and parents.
* the overlay lifecycle (constructor lines 149–177, `destroy`
  lines 490–492) and the top-level event wiring (lines 504–517).
-/

namespace Freesp

/-! ## The resource bin (`class Bin`, source lines 13–69)

`type Node = { next?: Node; item: Bin.Item }` — nodes are allocated one
per `add` and referenced by `head`, `tail` and the `next` fields.  We
keep the allocated nodes in a list (allocation order) and let the
pointers be indices into it. -/

structure Node (α : Type) where
  item : α
  next : Option Nat
deriving DecidableEq, Repr

structure Bin (α : Type) where
  nodes : List (Node α)
  head : Option Nat
  tail : Option Nat
deriving DecidableEq, Repr

namespace Bin

def empty {α : Type} : Bin α := ⟨[], none, none⟩

/-- `Bin.add` (source lines 24–30):
`const node = { item }; this.head ??= node;
if (this.tail) this.tail.next = node; this.tail = node;` -/
def add {α : Type} (b : Bin α) (x : α) : Bin α :=
  let i := b.nodes.length
  let nodes1 := b.nodes ++ [⟨x, none⟩]
  { nodes :=
      match b.tail with
      | none => nodes1
      | some t => nodes1.modify (fun n => { n with next := some i }) t
    head :=
      match b.head with
      | none => some i
      | some h => some h
    tail := some i }

/-- The `while (head)` loop of `Bin.destroy` (source lines 40–56).
`fails x = true` means the release action for `x` raises, aborting the
walk; the source updates `this.head` only after a successful release,
so on a raise the stored head stays at the raising node.  The fuel is
an artifact of the embedding; it is never exhausted on bins built by
`add` (their `next` pointers strictly increase).  Returns the items
whose release action was invoked, in order, whether an error escaped,
and the final head pointer. -/
def walk {α : Type} (nodes : List (Node α)) (fails : α → Bool) :
    Nat → Option Nat → List α × Bool × Option Nat
  | _, none => ([], false, none)
  | 0, some i => ([], false, some i)
  | fuel + 1, some i =>
    match nodes[i]? with
    | none => ([], false, some i)
    | some n =>
      if fails n.item then ([n.item], true, some i)
      else
        let r := walk nodes fails fuel n.next
        (n.item :: r.1, r.2.1, r.2.2)

/-- `Bin.destroy` (source lines 39–57), with the release actions
abstracted by the `fails` oracle. -/
def destroy {α : Type} (b : Bin α) (fails : α → Bool) :
    List α × Bool × Bin α :=
  let r := walk b.nodes fails (b.nodes.length + 1) b.head
  (r.1, r.2.1, { b with head := r.2.2 })

/-- `Bin.isEmpty` (source lines 62–64): `return this.head === undefined`. -/
def isEmpty {α : Type} (b : Bin α) : Bool := b.head = none

/-- A bin built by a sequence of `add`s from `empty`. -/
def ofList {α : Type} (xs : List α) : Bin α := xs.foldl add empty

/-- A sequence of `add`s applied to an existing bin. -/
def addAll {α : Type} (b : Bin α) (xs : List α) : Bin α := xs.foldl add b

/-- The node heap holds the items `xs` as a linked chain starting at
index `s`, each node pointing at the next index, the last at `none`. -/
def ChainFrom {α : Type} (nodes : List (Node α)) (s : Nat) (xs : List α) : Prop :=
  ∀ k (h : k < xs.length),
    nodes[s + k]? =
      some ⟨xs.get ⟨k, h⟩,
            if k + 1 < xs.length then some (s + k + 1) else none⟩

theorem chainFrom_nil {α : Type} (nodes : List (Node α)) (s : Nat) :
    ChainFrom nodes s [] := fun k h => absurd h (by simp)

/-- What the destroy walk does on a chain of items `xs` rooted at heap
index `s`: it releases items in order until the first failing one. -/
def walkResult {α : Type} (fails : α → Bool) (s : Nat) :
    List α → List α × Bool × Option Nat
  | [] => ([], false, none)
  | x :: xs =>
    if fails x then ([x], true, some s)
    else
      let r := walkResult fails (s + 1) xs
      (x :: r.1, r.2.1, r.2.2)

theorem walk_chain {α : Type} (fails : α → Bool) :
    ∀ (xs : List α) (nodes : List (Node α)) (s fuel : Nat),
      ChainFrom nodes s xs → xs.length < fuel →
      walk nodes fails fuel (if xs.isEmpty then none else some s) =
        walkResult fails s xs := by
  intro xs
  induction xs with
  | nil => intro nodes s fuel _ _; simp [walk, walkResult]
  | cons x xs ih =>
    intro nodes s fuel hchain hfuel
    obtain ⟨f, rfl⟩ : ∃ f, fuel = f + 1 :=
      ⟨fuel - 1, by omega⟩
    have h0 := hchain 0 (by simp)
    simp only [Nat.add_zero] at h0
    have hstep : ChainFrom nodes (s + 1) xs := by
      intro k hk
      have := hchain (k + 1) (by simpa using Nat.succ_lt_succ hk)
      simpa [Nat.add_assoc, Nat.add_comm, Nat.add_left_comm,
        Nat.succ_lt_succ_iff] using this
    simp only [List.isEmpty_cons, walk, h0]
    by_cases hf : fails x
    · simp [hf, walkResult]
    · have hnext :
          (if 0 + 1 < (x :: xs).length then some (s + 0 + 1) else none) =
            (if xs.isEmpty then none else some (s + 1)) := by
        cases xs <;> simp
      rw [walkResult]
      simp only [hf, Bool.false_eq_true, if_false, ite_false]
      rw [show (0 : Nat) + 1 = 1 from rfl] at hnext
      rw [hnext, ih nodes (s + 1) f hstep (by simpa using hfuel)]
      simp [hf]

theorem walkResult_no_fail {α : Type} (fails : α → Bool) :
    ∀ (xs : List α) (s : Nat), (∀ x ∈ xs, fails x = false) →
      walkResult fails s xs = (xs, false, none) := by
  intro xs
  induction xs with
  | nil => intro s _; rfl
  | cons x xs ih =>
    intro s hok
    have hx : fails x = false := hok x (by simp)
    rw [walkResult]
    simp [hx, ih (s + 1) (fun y hy => hok y (by simp [hy]))]

theorem walkResult_fail {α : Type} (fails : α → Bool) :
    ∀ (as : List α) (z : α) (bs : List α) (s : Nat),
      (∀ a ∈ as, fails a = false) → fails z = true →
      walkResult fails s (as ++ z :: bs) =
        (as ++ [z], true, some (s + as.length)) := by
  intro as
  induction as with
  | nil => intro z bs s _ hz; simp [walkResult, hz]
  | cons a as ih =>
    intro z bs s hok hz
    have ha : fails a = false := hok a (by simp)
    rw [List.cons_append, walkResult]
    simp only [ha, Bool.false_eq_true, if_false, ite_false]
    rw [ih z bs (s + 1) (fun y hy => hok y (by simp [hy])) hz]
    simp [Nat.add_assoc, Nat.add_comm, Nat.add_left_comm]

/-- The bin's reachable structure is exactly the chain `ys` occupying
the top of the node heap from index `s` up; indices below `s` are nodes
left over from generations released by earlier `destroy` calls (the
source never resets `tail`, so the stale tail of the previous
generation may still point into the heap).  `empty` satisfies
`Straight _ 0 []`, `add` extends the chain, and a completed `destroy`
leaves `Straight _ (s + ys.length) []`. -/
def Straight {α : Type} (b : Bin α) (s : Nat) (ys : List α) : Prop :=
  b.nodes.length = s + ys.length ∧
  ChainFrom b.nodes s ys ∧
  b.head = (if ys.isEmpty then none else some s) ∧
  (if ys.isEmpty then b.tail = none ∨ ∃ t, t < s ∧ b.tail = some t
   else b.tail = some (s + ys.length - 1))

theorem add_nodes_length {α : Type} (b : Bin α) (x : α) :
    (b.add x).nodes.length = b.nodes.length + 1 := by
  unfold Bin.add
  cases b.tail <;> simp

theorem add_nodes_getElem {α : Type} (b : Bin α) (x : α) (m : Nat) :
    (b.add x).nodes[m]? =
      (fun n => if b.tail = some m then { n with next := some b.nodes.length }
                else n) <$> (b.nodes ++ [⟨x, none⟩])[m]? := by
  unfold Bin.add
  cases h : b.tail with
  | none =>
    simp only [h]
    cases (b.nodes ++ [⟨x, none⟩])[m]? <;> simp
  | some t =>
    simp only [h]
    rw [List.getElem?_modify]
    by_cases htm : t = m <;>
      cases (b.nodes ++ [⟨x, none⟩])[m]? <;> simp [htm]

theorem add_head {α : Type} (b : Bin α) (x : α) :
    (b.add x).head =
      (match b.head with | none => some b.nodes.length | some h => some h) := by
  unfold Bin.add
  cases b.tail <;> rfl

theorem add_tail {α : Type} (b : Bin α) (x : α) :
    (b.add x).tail = some b.nodes.length := by
  unfold Bin.add
  cases b.tail <;> rfl

theorem straight_add {α : Type} {b : Bin α} {s : Nat} {ys : List α} (x : α)
    (hb : Straight b s ys) : Straight (b.add x) s (ys ++ [x]) := by
  obtain ⟨hlen, hchain, hhead, htail⟩ := hb
  by_cases hys : ys = []
  · -- first add of a generation: the new node starts the chain
    subst hys
    simp only [List.isEmpty_nil, if_true] at hhead htail
    simp only [List.length_nil, Nat.add_zero] at hlen
    refine ⟨?_, ?_, ?_, ?_⟩
    · rw [add_nodes_length, hlen]; simp
    · intro k hk
      have hk0 : k = 0 := by
        simp only [List.nil_append, List.length_cons, List.length_nil] at hk
        omega
      subst hk0
      rw [add_nodes_getElem]
      have hcons : (b.nodes ++ [⟨x, none⟩])[s + 0]? = some ⟨x, none⟩ := by
        simpa [hlen] using List.getElem?_concat_length b.nodes ⟨x, none⟩
      rw [hcons]
      have hne : ¬ b.tail = some s := by
        rcases htail with h | ⟨t, ht, h⟩ <;> simp [h] <;> omega
      simp [hne]
    · rw [add_head, hhead, hlen]; simp
    · rw [add_tail, hlen]; simp
  · -- later adds: the old last node's `next` is pointed at the new node
    have hysE : ys.isEmpty = false := by simpa using hys
    rw [hysE] at hhead htail
    simp only [Bool.false_eq_true, if_false] at hhead htail
    have hlen1 : 1 ≤ ys.length := by
      cases ys with
      | nil => exact absurd rfl hys
      | cons _ _ => simp
    refine ⟨?_, ?_, ?_, ?_⟩
    · rw [add_nodes_length, hlen]; simp [Nat.add_assoc]
    · intro k hk
      simp only [List.length_append, List.length_cons, List.length_nil] at hk
      rw [add_nodes_getElem]
      by_cases hklt : k < ys.length
      · have hidx : s + k < b.nodes.length := by omega
        rw [List.getElem?_append_left hidx, hchain k hklt]
        have hitem : (ys ++ [x]).get ⟨k, by simp [List.length_append]; omega⟩ =
            ys.get ⟨k, hklt⟩ := by
          simp [List.get_eq_getElem, List.getElem_append_left hklt]
        by_cases hlast : k + 1 < ys.length
        · have hne : ¬ b.tail = some (s + k) := by
            rw [htail]; simp; omega
          have hc1 : k + 1 < (ys ++ [x]).length := by simp; omega
          simp only [Option.map_some]
          rw [if_neg hne]
          simp only [if_pos hlast, if_pos hc1]
          exact congrArg some (by rw [← hitem])
        · have hkeq : k + 1 = ys.length := by omega
          have hcond : b.tail = some (s + k) := by rw [htail]; congr 1; omega
          have hc1 : k + 1 < (ys ++ [x]).length := by simp; omega
          simp only [Option.map_some]
          rw [if_pos hcond]
          simp only [if_neg hlast, if_pos hc1]
          refine congrArg some ?_
          refine congrArg₂ Node.mk hitem.symm ?_
          rw [hlen]
          congr 1
          omega
      · have hkeq : k = ys.length := by omega
        have hne : ¬ b.tail = some (s + k) := by
          rw [htail]; simp; omega
        have hcons : (b.nodes ++ [⟨x, none⟩])[s + k]? = some ⟨x, none⟩ := by
          subst hkeq
          simpa [hlen] using List.getElem?_concat_length b.nodes ⟨x, none⟩
        rw [hcons]
        simp only [Option.map_some]
        rw [if_neg hne]
        have hc1 : ¬ k + 1 < (ys ++ [x]).length := by simp; omega
        simp only [if_neg hc1]
        refine congrArg some (congrArg₂ Node.mk ?_ rfl)
        subst hkeq
        simp [List.get_eq_getElem]
    · rw [add_head, hhead]
      simp [hys]
    · rw [add_tail, hlen]
      have he : (ys ++ [x]).isEmpty = false := by simp
      rw [he]
      simp only [Bool.false_eq_true, if_false, List.length_append,
        List.length_cons, List.length_nil]
      exact congrArg some (by omega)

theorem straight_addAll {α : Type} {b : Bin α} {s : Nat} {ys : List α}
    (xs : List α) (hb : Straight b s ys) :
    Straight (addAll b xs) s (ys ++ xs) := by
  induction xs generalizing b ys with
  | nil => simpa [addAll] using hb
  | cons x xs ih =>
    have e : ys ++ x :: xs = (ys ++ [x]) ++ xs := by simp
    rw [e]
    exact ih (straight_add x hb)

theorem straight_empty {α : Type} : Straight (empty : Bin α) 0 [] :=
  ⟨rfl, chainFrom_nil _ _, rfl, Or.inl rfl⟩

theorem destroy_eq_walkResult {α : Type} (fails : α → Bool) {b : Bin α}
    {s : Nat} {ys : List α} (hb : Straight b s ys) :
    b.destroy fails =
      ((walkResult fails s ys).1, (walkResult fails s ys).2.1,
       { b with head := (walkResult fails s ys).2.2 }) := by
  obtain ⟨hlen, hchain, hhead, _⟩ := hb
  unfold Bin.destroy
  rw [hhead, walk_chain fails ys b.nodes s (b.nodes.length + 1) hchain
    (by omega)]

theorem destroy_no_fail {α : Type} (fails : α → Bool) {b : Bin α}
    {s : Nat} {ys : List α} (hb : Straight b s ys)
    (hok : ∀ x ∈ ys, fails x = false) :
    b.destroy fails = (ys, false, { b with head := none }) := by
  rw [destroy_eq_walkResult fails hb, walkResult_no_fail fails ys s hok]

theorem straight_after_destroy {α : Type} (fails : α → Bool) {b : Bin α}
    {s : Nat} {ys : List α} (hb : Straight b s ys)
    (hok : ∀ x ∈ ys, fails x = false) :
    Straight (b.destroy fails).2.2 (s + ys.length) [] := by
  rw [destroy_no_fail fails hb hok]
  obtain ⟨hlen, _, _, htail⟩ := hb
  refine ⟨by simpa using hlen, chainFrom_nil _ _, rfl, ?_⟩
  simp only [List.isEmpty_nil, if_true]
  by_cases hys : ys = []
  · subst hys
    simp only [List.isEmpty_nil, if_true] at htail
    rcases htail with h | ⟨t, ht, h⟩
    · exact Or.inl h
    · exact Or.inr ⟨t, by omega, h⟩
  · have hysE : ys.isEmpty = false := by simpa using hys
    rw [hysE] at htail
    simp only [Bool.false_eq_true, if_false] at htail
    have hlen1 : 1 ≤ ys.length := by
      cases ys with
      | nil => exact absurd rfl hys
      | cons _ _ => simp
    exact Or.inr ⟨s + ys.length - 1, by omega, htail⟩

theorem destroy_head_none {α : Type} (fails : α → Bool) {b : Bin α}
    (h : b.head = none) : b.destroy fails = ([], false, b) := by
  unfold Bin.destroy
  rw [h]
  cases b with
  | mk nodes head tail =>
    simp only at h
    subst h
    rfl

/-- A bin built by `add`s from `empty` is a single chain. -/
theorem straight_ofList {α : Type} (xs : List α) :
    Straight (ofList xs) 0 xs := by
  simpa using straight_addAll xs straight_empty

end Bin

/-! ## The overlay's owned resources

The `ESP` constructor (source lines 149–177) stores in the bin, in
this order: the 4 box-line frames then the 10 bone-line frames
(`constructLines`, lines 290–316), the label container (`setLabels`,
line 348), and the callback `() => instances.delete(entity)`
(line 172).  The `AncestryChanged` connection made on line 173 is not
stored anywhere. -/

inductive OwnedItem where
  | boxLine (i : Fin 4)
  | boneLine (i : Fin 10)
  | labelContainer
  | deleteRegistryEntry
deriving DecidableEq, Repr

def constructorBinItems : List OwnedItem :=
  ((List.finRange 4).map OwnedItem.boxLine) ++
    ((List.finRange 10).map OwnedItem.boneLine) ++
    [OwnedItem.labelContainer, OwnedItem.deleteRegistryEntry]

/-- The observable resources owned by one overlay. -/
structure OverlayRes where
  bin : Bin OwnedItem
  /-- `ESP.instances` still has this overlay's entity as a key. -/
  registryEntry : Bool
  /-- the box-line frames that have not been `Destroy`ed -/
  boxLineLive : Fin 4 → Bool
  /-- the bone-line frames that have not been `Destroy`ed -/
  boneLineLive : Fin 10 → Bool
  /-- the label container frame is not `Destroy`ed -/
  containerLive : Bool
  /-- the `entity.AncestryChanged` connection is still connected -/
  ancestryConnectionLive : Bool
deriving DecidableEq

/-- The overlay's resource state right after the constructor ran. -/
def overlayAfterConstruct : OverlayRes :=
  { bin := Bin.ofList constructorBinItems
    registryEntry := true
    boxLineLive := fun _ => true
    boneLineLive := fun _ => true
    containerLive := true
    ancestryConnectionLive := true }

/-- The kind-appropriate release action of one bin entry (the dispatch
inside `Bin.destroy`, lines 43–53): the stored callback deletes the
registry entry; the frames and the container are `Destroy`ed.  None of
these actions raises. -/
def applyRelease (s : OverlayRes) : OwnedItem → OverlayRes
  | .boxLine i =>
    { s with boxLineLive := fun j => if j = i then false else s.boxLineLive j }
  | .boneLine i =>
    { s with boneLineLive := fun j => if j = i then false else s.boneLineLive j }
  | .labelContainer => { s with containerLive := false }
  | .deleteRegistryEntry => { s with registryEntry := false }

namespace ESP

/-- `ESP.destroy` (source lines 490–492): `this.bin.destroy()`. -/
def destroy (s : OverlayRes) : OverlayRes :=
  let r := s.bin.destroy (fun _ => false)
  r.1.foldl applyRelease { s with bin := r.2.2 }

end ESP

/-! ## Claims C3, C4, C5, C10 -/

/-- C3, counterexample: destroying the overlay right after construction
does NOT cancel the subscription to the entity's removal signal — the
`AncestryChanged` connection (line 173) was never stored in the bin, so
it is still connected after `destroy()`. -/
theorem c3_connection_not_cancelled :
    (ESP.destroy overlayAfterConstruct).ancestryConnectionLive = true := by
  decide

/-- C3 (amended): after `destroy()` has run on a freshly constructed
overlay, the Registry entry is removed, the 4 box-line and 10 bone-line
frames and the label container are destroyed and the bin is empty, but
the `AncestryChanged` connection is NOT cancelled (it is never stored
in the bin). -/
theorem c3_destroy_releases_bin_items :
    (ESP.destroy overlayAfterConstruct).registryEntry = false ∧
    (∀ i, (ESP.destroy overlayAfterConstruct).boxLineLive i = false) ∧
    (∀ i, (ESP.destroy overlayAfterConstruct).boneLineLive i = false) ∧
    (ESP.destroy overlayAfterConstruct).containerLive = false ∧
    (ESP.destroy overlayAfterConstruct).bin.isEmpty = true ∧
    (ESP.destroy overlayAfterConstruct).ancestryConnectionLive = true := by
  decide

/-- C4: on any bin the program can build (a `Straight` one), once
`destroy()` has completed, a second `destroy()` releases nothing and
leaves the state exactly as after the first call, and `isEmpty()`
reports `true`; likewise destroying an already-destroyed overlay
changes nothing. -/
theorem c4_destroy_idempotent {α : Type} (b : Bin α) (s : Nat)
    (ys : List α) (fails : α → Bool) (hb : Bin.Straight b s ys)
    (hok : ∀ x ∈ ys, fails x = false) :
    ((b.destroy fails).2.2.destroy fails = ([], false, (b.destroy fails).2.2) ∧
      (b.destroy fails).2.2.isEmpty = true) ∧
    ESP.destroy (ESP.destroy overlayAfterConstruct) =
      ESP.destroy overlayAfterConstruct := by
  refine ⟨⟨?_, ?_⟩, by decide⟩
  · refine Bin.destroy_head_none fails ?_
    rw [Bin.destroy_no_fail fails hb hok]
  · rw [Bin.destroy_no_fail fails hb hok]
    rfl

/-- C4 witness: a concrete bin with three items. -/
theorem c4_destroy_idempotent_witness :
    (((Bin.ofList [10, 20, 30]).destroy (fun _ => false)).2.2.destroy
        (fun _ => false) =
      ([], false, ((Bin.ofList [10, 20, 30]).destroy (fun _ => false)).2.2) ∧
      ((Bin.ofList [10, 20, 30]).destroy (fun _ => false)).2.2.isEmpty
        = true) ∧
    ESP.destroy (ESP.destroy overlayAfterConstruct) =
      ESP.destroy overlayAfterConstruct :=
  c4_destroy_idempotent (Bin.ofList [10, 20, 30]) 0 [10, 20, 30]
    (fun _ => false) (Bin.straight_ofList [10, 20, 30])
    (fun _ _ => rfl)

/-- Two demo bin items for claim C5: a stored callback whose call
raises, and a connection whose `Disconnect` does not. -/
inductive CbItem where
  | throwingCallback
  | connection
deriving DecidableEq, Repr

def cbFails : CbItem → Bool
  | .throwingCallback => true
  | .connection => false

/-- C5, counterexample: in a bin holding a raising callback followed by
a connection, `destroy()` invokes only the callback's release; the
failure is not swallowed (it escapes) and it DOES prevent the release
of the subsequent entry — the connection is never disconnected by this
call. -/
theorem c5_failure_stops_walk :
    ((Bin.ofList [CbItem.throwingCallback, CbItem.connection]).destroy
        cbFails).1 = [CbItem.throwingCallback] ∧
    ((Bin.ofList [CbItem.throwingCallback, CbItem.connection]).destroy
        cbFails).2.1 = true ∧
    CbItem.connection ∉
      ((Bin.ofList [CbItem.throwingCallback, CbItem.connection]).destroy
        cbFails).1 := by
  decide

/-- C5 (amended): `destroy()` releases entries in insertion order, but
a failure raised while releasing one entry aborts the walk: the
entries after the failing one are not released by that call, the error
escapes, and the stored head is left at the failing entry (so only a
later `destroy()` call would resume from it). -/
theorem c5_release_order_and_failure {α : Type} (b : Bin α) (s : Nat)
    (ys : List α) (fails : α → Bool) (hb : Bin.Straight b s ys) :
    ((∀ x ∈ ys, fails x = false) →
      b.destroy fails = (ys, false, { b with head := none })) ∧
    (∀ as z bs, ys = as ++ z :: bs → (∀ a ∈ as, fails a = false) →
      fails z = true →
      b.destroy fails =
        (as ++ [z], true, { b with head := some (s + as.length) })) := by
  constructor
  · intro hok
    exact Bin.destroy_no_fail fails hb hok
  · intro as z bs hys hok hz
    subst hys
    rw [Bin.destroy_eq_walkResult fails hb,
      Bin.walkResult_fail fails as z bs s hok hz]

/-- C5 witness: the amended statement evaluated on the concrete bin
`[connection, throwingCallback]`. -/
theorem c5_release_order_and_failure_witness :
    (Bin.ofList [CbItem.connection, CbItem.throwingCallback]).destroy
        cbFails =
      ([CbItem.connection, CbItem.throwingCallback], true,
        { Bin.ofList [CbItem.connection, CbItem.throwingCallback] with
            head := some (0 + [CbItem.connection].length) }) :=
  (c5_release_order_and_failure
      (Bin.ofList [CbItem.connection, CbItem.throwingCallback]) 0
      [CbItem.connection, CbItem.throwingCallback] cbFails
      (Bin.straight_ofList _)).2
    [CbItem.connection] CbItem.throwingCallback [] rfl (by decide) rfl

/-- C10: starting from any bin on which `destroy()` has completed
(`Straight b s []`), the items `xs` added afterwards form a fresh
chain: `isEmpty` is `false` exactly while un-released items remain, and
the next `destroy()` releases exactly `xs`, in order, each once — the
items of earlier generations are not re-released even though `tail`
still points into the old heap. -/
theorem c10_fresh_generation {α : Type} (b : Bin α) (s : Nat)
    (hb : Bin.Straight b s []) (xs : List α) (fails : α → Bool)
    (hok : ∀ x ∈ xs, fails x = false) :
    b.isEmpty = true ∧
    (Bin.addAll b xs).isEmpty = xs.isEmpty ∧
    (Bin.addAll b xs).destroy fails =
      (xs, false, { Bin.addAll b xs with head := none }) ∧
    ((Bin.addAll b xs).destroy fails).2.2.isEmpty = true := by
  have h : Bin.Straight (Bin.addAll b xs) s xs := by
    simpa using Bin.straight_addAll xs hb
  have hhead0 := hb.2.2.1
  have hhead := h.2.2.1
  simp only [List.isEmpty_nil, if_true] at hhead0
  refine ⟨by simp [Bin.isEmpty, hhead0], ?_, ?_, ?_⟩
  · rw [Bin.isEmpty, hhead]
    cases hxe : xs.isEmpty <;> simp [hxe]
  · exact Bin.destroy_no_fail fails h hok
  · rw [Bin.destroy_no_fail fails h hok]
    simp [Bin.isEmpty]

/-- C10 witness: items `[7, 8]` added to a bin whose two original
items were already released. -/
theorem c10_fresh_generation_witness :
    (((Bin.ofList [5, 6]).destroy (fun _ => false)).2.2.isEmpty = true) ∧
    (Bin.addAll ((Bin.ofList [5, 6]).destroy (fun _ => false)).2.2
        [7, 8]).destroy (fun _ => false) =
      ([7, 8], false,
        { Bin.addAll ((Bin.ofList [5, 6]).destroy (fun _ => false)).2.2
            [7, 8] with head := none }) :=
  have h := c10_fresh_generation
    ((Bin.ofList [5, 6]).destroy (fun _ => false)).2.2 (0 + 2)
    (Bin.straight_after_destroy (fun _ => false)
      (Bin.straight_ofList [5, 6]) (fun _ _ => rfl))
    [7, 8] (fun _ => false) (fun _ _ => rfl)
  ⟨h.1, h.2.2.1⟩

/-! ## Rig construction (`constructPoints` lines 179–215,
`constructBones` lines 217–288)

Both functions only read the `Size` of the entity's parts and produce
attachments with a local `Position` and a `Parent`; we model them as
pure functions over `ℚ`-valued sizes. -/

structure Vec3Q where
  x : ℚ
  y : ℚ
  z : ℚ
deriving DecidableEq, Repr

/-- The named body parts of an R6 rig; `root` is the part the box is
attached to (`HumanoidRootPart`, falling back to `Torso`, line 190). -/
inductive BodyPart where
  | head
  | torso
  | rightArm
  | rightLeg
  | leftArm
  | leftLeg
  | root
deriving DecidableEq, Repr

/-- The `Part.Size` of each body part of the entity. -/
structure R6Sizes where
  head : Vec3Q
  torso : Vec3Q
  rightArm : Vec3Q
  rightLeg : Vec3Q
  leftArm : Vec3Q
  leftLeg : Vec3Q
  root : Vec3Q
deriving DecidableEq, Repr

/-- What a box point is parented to (lines 206–212). -/
inductive PointParent where
  | rootPart
  | pointC
  | pointT
  | pointB
deriving DecidableEq, Repr

structure PointAtt where
  parent : PointParent
  position : Vec3Q
deriving DecidableEq, Repr

structure Points where
  C : PointAtt
  T : PointAtt
  B : PointAtt
  BL : PointAtt
  BR : PointAtt
  TL : PointAtt
  TR : PointAtt
deriving DecidableEq, Repr

structure BoneAtt where
  parent : BodyPart
  position : Vec3Q
deriving DecidableEq, Repr

structure Bones where
  face : BoneAtt
  neck : BoneAtt
  waist : BoneAtt
  right_shoulder : BoneAtt
  right_hand : BoneAtt
  right_hip : BoneAtt
  right_foot : BoneAtt
  left_shoulder : BoneAtt
  left_hand : BoneAtt
  left_hip : BoneAtt
  left_foot : BoneAtt
deriving DecidableEq, Repr

namespace ESP

/-- `ESP.constructPoints` (lines 179–215).  `0.4 = 2/5`,
`0.3 = 3/10`, `0.2 = 1/5`; an `Attachment`'s default `Position` is the
origin, and `C`'s position is never set. -/
def constructPoints (e : R6Sizes) : Points :=
  let U : ℚ := e.root.y / 2 + e.head.y + 2/5
  let D : ℚ := -e.root.y / 2 - e.rightLeg.y - 3/10
  let LR : ℚ := e.root.x / 2 + e.rightArm.x + 1/5
  { C := ⟨.rootPart, ⟨0, 0, 0⟩⟩
    T := ⟨.pointC, ⟨0, U, 0⟩⟩
    B := ⟨.pointC, ⟨0, D, 0⟩⟩
    BL := ⟨.pointB, ⟨-LR, 0, 0⟩⟩
    BR := ⟨.pointB, ⟨LR, 0, 0⟩⟩
    TL := ⟨.pointT, ⟨-LR, 0, 0⟩⟩
    TR := ⟨.pointT, ⟨LR, 0, 0⟩⟩ }

/-- `ESP.constructBones` (lines 217–288).  Note the variables on
lines 233–236: the limb half-heights `arm_y` and `leg_y` are computed
from `right_arm_size` and `right_leg_size` only, and are used for the
left-side joints as well. -/
def constructBones (e : R6Sizes) : Bones :=
  let head_y := e.head.y / 2
  let torso_y := e.torso.y / 2
  let arm_y := e.rightArm.y / 2
  let leg_y := e.rightLeg.y / 2
  { face := ⟨.head, ⟨0, head_y, 0⟩⟩
    neck := ⟨.torso, ⟨0, torso_y, 0⟩⟩
    waist := ⟨.torso, ⟨0, -torso_y, 0⟩⟩
    right_shoulder := ⟨.rightArm, ⟨0, arm_y, 0⟩⟩
    right_hand := ⟨.rightArm, ⟨0, -arm_y, 0⟩⟩
    right_hip := ⟨.rightLeg, ⟨0, leg_y, 0⟩⟩
    right_foot := ⟨.rightLeg, ⟨0, -leg_y, 0⟩⟩
    left_shoulder := ⟨.leftArm, ⟨0, arm_y, 0⟩⟩
    left_hand := ⟨.leftArm, ⟨0, -arm_y, 0⟩⟩
    left_hip := ⟨.leftLeg, ⟨0, leg_y, 0⟩⟩
    left_foot := ⟨.leftLeg, ⟨0, -leg_y, 0⟩⟩ }

end ESP

/-! ## Claims C6 and C7 -/

/-- An asymmetric rig: the left arm is taller than the right arm. -/
def asymSizes : R6Sizes :=
  { head := ⟨2, 1, 1⟩
    torso := ⟨2, 2, 1⟩
    rightArm := ⟨1, 2, 1⟩
    rightLeg := ⟨1, 2, 1⟩
    leftArm := ⟨1, 4, 1⟩
    leftLeg := ⟨1, 2, 1⟩
    root := ⟨2, 2, 1⟩ }

/-- C6, counterexample: on a rig whose left arm height (4) differs from
the right arm height (2), the left shoulder joint is attached to the
left arm but its offset is half the RIGHT arm's height (1), not half
its owning part's height (2). -/
theorem c6_left_offsets_from_right_sizes :
    (ESP.constructBones asymSizes).left_shoulder.parent = BodyPart.leftArm ∧
    (ESP.constructBones asymSizes).left_shoulder.position.y = 1 ∧
    asymSizes.leftArm.y / 2 = 2 ∧
    (ESP.constructBones asymSizes).left_shoulder.position.y ≠
      asymSizes.leftArm.y / 2 := by
  norm_num [ESP.constructBones, asymSizes]

/-- C6 (amended): every skeleton joint is attached directly to its
owning body part, upper joints at `+half` and lower joints at `-half`
of a vertical part extent — but for the limb joints that half-height is
always taken from the RIGHT limb (`Right Arm`/`Right Leg` sizes,
lines 230–236), also on the left side; the claim's reading holds only
when the left limb sizes equal the right ones. -/
theorem c6_bone_offsets (e : R6Sizes) :
    (ESP.constructBones e).face = ⟨.head, ⟨0, e.head.y / 2, 0⟩⟩ ∧
    (ESP.constructBones e).neck = ⟨.torso, ⟨0, e.torso.y / 2, 0⟩⟩ ∧
    (ESP.constructBones e).waist = ⟨.torso, ⟨0, -(e.torso.y / 2), 0⟩⟩ ∧
    (ESP.constructBones e).right_shoulder =
      ⟨.rightArm, ⟨0, e.rightArm.y / 2, 0⟩⟩ ∧
    (ESP.constructBones e).right_hand =
      ⟨.rightArm, ⟨0, -(e.rightArm.y / 2), 0⟩⟩ ∧
    (ESP.constructBones e).right_hip =
      ⟨.rightLeg, ⟨0, e.rightLeg.y / 2, 0⟩⟩ ∧
    (ESP.constructBones e).right_foot =
      ⟨.rightLeg, ⟨0, -(e.rightLeg.y / 2), 0⟩⟩ ∧
    (ESP.constructBones e).left_shoulder =
      ⟨.leftArm, ⟨0, e.rightArm.y / 2, 0⟩⟩ ∧
    (ESP.constructBones e).left_hand =
      ⟨.leftArm, ⟨0, -(e.rightArm.y / 2), 0⟩⟩ ∧
    (ESP.constructBones e).left_hip =
      ⟨.leftLeg, ⟨0, e.rightLeg.y / 2, 0⟩⟩ ∧
    (ESP.constructBones e).left_foot =
      ⟨.leftLeg, ⟨0, -(e.rightLeg.y / 2), 0⟩⟩ :=
  ⟨rfl, rfl, rfl, rfl, rfl, rfl, rfl, rfl, rfl, rfl, rfl⟩

/-- C7: the box rig.  Top offset is half the root height plus the head
height plus the fixed margin `0.4`; bottom offset is minus half the
root height minus the (right) leg height minus the fixed margin `0.3`;
the horizontal offset is half the root width plus the (right) arm width
plus the fixed margin `0.2`; the four corners are children of the
top/bottom centre points at `±` the horizontal offset, and the chain is
`root part → C → T/B → corners`. -/
theorem c7_box_points (e : R6Sizes) :
    (ESP.constructPoints e).T.position =
      ⟨0, e.root.y / 2 + e.head.y + 2/5, 0⟩ ∧
    (ESP.constructPoints e).B.position =
      ⟨0, -e.root.y / 2 - e.rightLeg.y - 3/10, 0⟩ ∧
    (ESP.constructPoints e).TL.position =
      ⟨-(e.root.x / 2 + e.rightArm.x + 1/5), 0, 0⟩ ∧
    (ESP.constructPoints e).TR.position =
      ⟨e.root.x / 2 + e.rightArm.x + 1/5, 0, 0⟩ ∧
    (ESP.constructPoints e).BL.position =
      ⟨-(e.root.x / 2 + e.rightArm.x + 1/5), 0, 0⟩ ∧
    (ESP.constructPoints e).BR.position =
      ⟨e.root.x / 2 + e.rightArm.x + 1/5, 0, 0⟩ ∧
    (ESP.constructPoints e).C.parent = PointParent.rootPart ∧
    (ESP.constructPoints e).T.parent = PointParent.pointC ∧
    (ESP.constructPoints e).B.parent = PointParent.pointC ∧
    (ESP.constructPoints e).TL.parent = PointParent.pointT ∧
    (ESP.constructPoints e).TR.parent = PointParent.pointT ∧
    (ESP.constructPoints e).BL.parent = PointParent.pointB ∧
    (ESP.constructPoints e).BR.parent = PointParent.pointB :=
  ⟨rfl, rfl, rfl, rfl, rfl, rfl, rfl, rfl, rfl, rfl, rfl, rfl, rfl⟩

/-! ## Screen geometry (`updateLineFromPoints`, lines 91–100) -/

structure Vec2 where
  x : ℝ
  y : ℝ

/-- `Vector2.Magnitude`. -/
noncomputable def Vec2.magnitude (v : Vec2) : ℝ :=
  Real.sqrt (v.x ^ 2 + v.y ^ 2)

/-- Luau's `math.atan2` (value in `(-π, π]`, `atan2 0 0 = 0`). -/
noncomputable def atan2 (y x : ℝ) : ℝ :=
  if 0 < x then Real.arctan (y / x)
  else if x < 0 then
    (if 0 ≤ y then Real.arctan (y / x) + Real.pi
     else Real.arctan (y / x) - Real.pi)
  else if 0 < y then Real.pi / 2
  else if y < 0 then -(Real.pi / 2)
  else 0

/-- `math.deg`. -/
noncomputable def mathDeg (a : ℝ) : ℝ := a * 180 / Real.pi

/-- `UDim2`, as its four constructor arguments. -/
structure UDim2 where
  xScale : ℝ
  xOffset : ℝ
  yScale : ℝ
  yOffset : ℝ

/-- The fields of a `Frame` that the render path writes. -/
structure Frame where
  visible : Bool
  position : UDim2
  size : UDim2
  rotation : ℝ

/-- `updateLineFromPoints` (lines 91–100). -/
noncomputable def updateLineFromPoints (line : Frame) (p0 p1 : Vec2) :
    Frame :=
  let displacement : Vec2 := ⟨p1.x - p0.x, p1.y - p0.y⟩
  let distance := displacement.magnitude
  let midpoint : Vec2 := ⟨p0.x + displacement.x / 2, p0.y + displacement.y / 2⟩
  let angle := mathDeg (atan2 displacement.y displacement.x)
  { line with
      position := ⟨0, midpoint.x, 0, midpoint.y⟩
      size := ⟨0, distance, 0, line.size.yOffset⟩
      rotation := angle }

/-! Elementary arctangent bounds used to place the example angle
`atan2 4 3` between 53 and 54 degrees. -/

theorem arctan_lt_self {x : ℝ} (hx : 0 < x) : Real.arctan x < x := by
  have h0 : 0 < Real.arctan x := by
    have := Real.arctan_strictMono hx
    rwa [Real.arctan_zero] at this
  have h2 := Real.lt_tan h0 (Real.arctan_lt_pi_div_two x)
  rwa [Real.tan_arctan] at h2

theorem arctan_gt_cubic {x : ℝ} (hx : 0 < x) :
    x - x ^ 3 / 3 < Real.arctan x := by
  have hmono : StrictMonoOn (fun t : ℝ => Real.arctan t - (t - t ^ 3 / 3))
      (Set.Ici (0 : ℝ)) := by
    refine strictMonoOn_of_deriv_pos (convex_Ici 0) ?_ ?_
    · exact (Real.continuous_arctan.sub (by continuity)).continuousOn
    · intro t ht
      rw [interior_Ici] at ht
      have hd : HasDerivAt (fun t : ℝ => Real.arctan t - (t - t ^ 3 / 3))
          (1 / (1 + t ^ 2) - (1 - 3 * t ^ 2 / 3)) t := by
        exact (Real.hasDerivAt_arctan t).sub
          ((hasDerivAt_id t).sub ((hasDerivAt_pow 3 t).div_const 3))
      rw [hd.deriv]
      have hpos : (0 : ℝ) < 1 + t ^ 2 := by positivity
      have he : 1 / (1 + t ^ 2) - (1 - 3 * t ^ 2 / 3) =
          t ^ 4 / (1 + t ^ 2) := by
        field_simp
        ring
      rw [he]
      have ht0 : (0 : ℝ) < t := ht
      positivity
  have h := hmono (Set.left_mem_Ici) (Set.mem_Ici.mpr hx.le) hx
  simp only [Real.arctan_zero] at h
  nlinarith [h]

theorem arctan_lt_quintic {x : ℝ} (hx : 0 < x) :
    Real.arctan x < x - x ^ 3 / 3 + x ^ 5 / 5 := by
  have hmono : StrictMonoOn
      (fun t : ℝ => t - t ^ 3 / 3 + t ^ 5 / 5 - Real.arctan t)
      (Set.Ici (0 : ℝ)) := by
    refine strictMonoOn_of_deriv_pos (convex_Ici 0) ?_ ?_
    · exact ((by continuity : Continuous fun t : ℝ =>
        t - t ^ 3 / 3 + t ^ 5 / 5).sub Real.continuous_arctan).continuousOn
    · intro t ht
      rw [interior_Ici] at ht
      have hd : HasDerivAt
          (fun t : ℝ => t - t ^ 3 / 3 + t ^ 5 / 5 - Real.arctan t)
          (1 - 3 * t ^ 2 / 3 + 5 * t ^ 4 / 5 - 1 / (1 + t ^ 2)) t := by
        exact (((hasDerivAt_id t).sub ((hasDerivAt_pow 3 t).div_const 3)).add
          ((hasDerivAt_pow 5 t).div_const 5)).sub (Real.hasDerivAt_arctan t)
      rw [hd.deriv]
      have hpos : (0 : ℝ) < 1 + t ^ 2 := by positivity
      have he : 1 - 3 * t ^ 2 / 3 + 5 * t ^ 4 / 5 - 1 / (1 + t ^ 2) =
          t ^ 6 / (1 + t ^ 2) := by
        field_simp
        ring
      rw [he]
      have ht0 : (0 : ℝ) < t := ht
      positivity
  have h := hmono (Set.left_mem_Ici) (Set.mem_Ici.mpr hx.le) hx
  simp only [Real.arctan_zero] at h
  nlinarith [h]

theorem arctan_three_quarters :
    Real.arctan (3 / 4) = 2 * Real.arctan (1 / 3) := by
  have h := @Real.arctan_add (1 / 3) (1 / 3) (by norm_num)
  rw [show ((1 : ℝ) / 3 + 1 / 3) / (1 - 1 / 3 * (1 / 3)) = 3 / 4 by
    norm_num] at h
  linarith [h]

theorem arctan_four_thirds :
    Real.arctan (4 / 3) = Real.pi / 2 - Real.arctan (3 / 4) := by
  have h := @Real.arctan_inv_of_pos (3 / 4) (by norm_num)
  rwa [show ((3 : ℝ) / 4)⁻¹ = 4 / 3 by norm_num] at h

/-- `atan2 4 3` in degrees lies strictly between 53 and 54. -/
theorem deg_atan2_4_3_bounds :
    53 < mathDeg (atan2 4 3) ∧ mathDeg (atan2 4 3) < 54 := by
  have hx : atan2 4 3 = Real.arctan (4 / 3) := by
    rw [atan2, if_pos (by norm_num : (0 : ℝ) < 3)]
  have hlo : (26 : ℝ) / 81 < Real.arctan (1 / 3) := by
    have := @arctan_gt_cubic ((1 : ℝ) / 3) (by norm_num)
    nlinarith [this]
  have hhi : Real.arctan (1 / 3) < 391 / 1215 := by
    have := @arctan_lt_quintic ((1 : ℝ) / 3) (by norm_num)
    nlinarith [this]
  have ha_lo : (52 : ℝ) / 81 < Real.arctan (3 / 4) := by
    rw [arctan_three_quarters]; linarith
  have ha_hi : Real.arctan (3 / 4) < 782 / 1215 := by
    rw [arctan_three_quarters]; linarith
  have hπ1 : (3.14 : ℝ) < Real.pi := Real.pi_gt_d2
  have hπ2 : Real.pi < 3.15 := Real.pi_lt_d2
  have hπ0 : (0 : ℝ) < Real.pi := Real.pi_pos
  rw [hx, arctan_four_thirds, mathDeg]
  constructor
  · rw [lt_div_iff hπ0]
    nlinarith
  · rw [div_lt_iff hπ0]
    nlinarith

/-- C2: `updateLineFromPoints` places the line at the arithmetic mean
of the two screen points, gives it the Euclidean distance between them
as its length, and rotates it by `atan2` of the displacement, in
degrees; at `p0 = (0,0)`, `p1 = (3,4)` this is midpoint `(1.5, 2)`,
length `5` and an angle strictly between 53 and 54 degrees
(≈ 53.13°). -/
theorem c2_line_from_points :
    (∀ (line : Frame) (p0 p1 : Vec2),
      (updateLineFromPoints line p0 p1).position =
        ⟨0, (p0.x + p1.x) / 2, 0, (p0.y + p1.y) / 2⟩ ∧
      (updateLineFromPoints line p0 p1).size =
        ⟨0, Real.sqrt ((p1.x - p0.x) ^ 2 + (p1.y - p0.y) ^ 2), 0,
          line.size.yOffset⟩ ∧
      (updateLineFromPoints line p0 p1).rotation =
        mathDeg (atan2 (p1.y - p0.y) (p1.x - p0.x))) ∧
    (∀ line : Frame,
      (updateLineFromPoints line ⟨0, 0⟩ ⟨3, 4⟩).position.xOffset = 3/2 ∧
      (updateLineFromPoints line ⟨0, 0⟩ ⟨3, 4⟩).position.yOffset = 2 ∧
      (updateLineFromPoints line ⟨0, 0⟩ ⟨3, 4⟩).size.xOffset = 5 ∧
      53 < (updateLineFromPoints line ⟨0, 0⟩ ⟨3, 4⟩).rotation ∧
      (updateLineFromPoints line ⟨0, 0⟩ ⟨3, 4⟩).rotation < 54) := by
  constructor
  · intro line p0 p1
    refine ⟨?_, rfl, rfl⟩
    simp only [updateLineFromPoints, UDim2.mk.injEq]
    exact ⟨trivial, by ring, trivial, by ring⟩
  · intro line
    have hrot : (updateLineFromPoints line ⟨0, 0⟩ ⟨3, 4⟩).rotation =
        mathDeg (atan2 4 3) := by
      show mathDeg (atan2 ((4 : ℝ) - 0) ((3 : ℝ) - 0)) = _
      norm_num
    refine ⟨by norm_num [updateLineFromPoints],
      by norm_num [updateLineFromPoints], ?_, ?_, ?_⟩
    · show Real.sqrt (((3 : ℝ) - 0) ^ 2 + ((4 : ℝ) - 0) ^ 2) = 5
      rw [show ((3 : ℝ) - 0) ^ 2 + ((4 : ℝ) - 0) ^ 2 = 5 ^ 2 by norm_num]
      exact Real.sqrt_sq (by norm_num)
    · rw [hrot]; exact deg_atan2_4_3_bounds.1
    · rw [hrot]; exact deg_atan2_4_3_bounds.2

/-! ## Per-frame rendering (`ESP.render`, lines 378–488) -/

structure Vec3R where
  x : ℝ
  y : ℝ
  z : ℝ

/-- The current `WorldPosition` of each rig attachment: the 7 box
points and the 11 skeleton joints. -/
structure RigWorld where
  C : Vec3R
  T : Vec3R
  B : Vec3R
  BL : Vec3R
  BR : Vec3R
  TL : Vec3R
  TR : Vec3R
  face : Vec3R
  neck : Vec3R
  waist : Vec3R
  right_shoulder : Vec3R
  right_hand : Vec3R
  right_hip : Vec3R
  right_foot : Vec3R
  left_shoulder : Vec3R
  left_hand : Vec3R
  left_hip : Vec3R
  left_foot : Vec3R

/-- The components of the stats line `data.Text` (line 485):
`[floor distance] [health/maxHealth] [floor(health/maxHealth*100)%]`. -/
structure LabelData where
  distance : ℤ
  health : ℝ
  maxHealth : ℝ
  percent : ℤ

/-- The screen state one overlay mutates each frame: its 4 box-line
frames (`box_lines[0..3]`), 10 bone-line frames (`bone_lines[0..9]`),
and the label container. -/
structure EspState where
  box0 : Frame
  box1 : Frame
  box2 : Frame
  box3 : Frame
  bone0 : Frame
  bone1 : Frame
  bone2 : Frame
  bone3 : Frame
  bone4 : Frame
  bone5 : Frame
  bone6 : Frame
  bone7 : Frame
  bone8 : Frame
  bone9 : Frame
  containerVisible : Bool
  containerPos : UDim2
  dataText : LabelData

namespace ESP

/-- `ESP.setVisible` (lines 351–357): writes only the `Visible`
fields of the container and the 14 line frames. -/
def setVisible (v : Bool) (st : EspState) : EspState :=
  { st with
      containerVisible := v
      box0 := { st.box0 with visible := v }
      box1 := { st.box1 with visible := v }
      box2 := { st.box2 with visible := v }
      box3 := { st.box3 with visible := v }
      bone0 := { st.bone0 with visible := v }
      bone1 := { st.bone1 with visible := v }
      bone2 := { st.bone2 with visible := v }
      bone3 := { st.bone3 with visible := v }
      bone4 := { st.bone4 with visible := v }
      bone5 := { st.bone5 with visible := v }
      bone6 := { st.bone6 with visible := v }
      bone7 := { st.bone7 with visible := v }
      bone8 := { st.bone8 with visible := v }
      bone9 := { st.bone9 with visible := v } }

/-- `ESP.render` (lines 378–488).  `proj` is
`CurrentCamera.WorldToViewportPoint` (the z component is the depth),
`contentSizeY` is `listlayout.AbsoluteContentSize.Y`.  Note that the
destructuring on line 382 takes only `C, T, BL, BR, TL, TR` — the
bottom-centre point `B` is never projected. -/
noncomputable def render (proj : Vec3R → Vec3R) (rig : RigWorld)
    (health maxHealth contentSizeY : ℝ) (st : EspState) : EspState :=
  let C_P := proj rig.C
  if C_P.z < 0 then setVisible false st else
  let T_P := proj rig.T
  if T_P.z < 0 then setVisible false st else
  let BL_P := proj rig.BL
  if BL_P.z < 0 then setVisible false st else
  let BR_P := proj rig.BR
  if BR_P.z < 0 then setVisible false st else
  let TL_P := proj rig.TL
  if TL_P.z < 0 then setVisible false st else
  let TR_P := proj rig.TR
  if TR_P.z < 0 then setVisible false st else
  let face_P := proj rig.face
  if face_P.z < 0 then setVisible false st else
  let neck_P := proj rig.neck
  if neck_P.z < 0 then setVisible false st else
  let waist_P := proj rig.waist
  if waist_P.z < 0 then setVisible false st else
  let right_shoulder_P := proj rig.right_shoulder
  if right_shoulder_P.z < 0 then setVisible false st else
  let right_hand_P := proj rig.right_hand
  if right_hand_P.z < 0 then setVisible false st else
  let right_hip_P := proj rig.right_hip
  if right_hip_P.z < 0 then setVisible false st else
  let right_foot_P := proj rig.right_foot
  if right_foot_P.z < 0 then setVisible false st else
  let left_shoulder_P := proj rig.left_shoulder
  if left_shoulder_P.z < 0 then setVisible false st else
  let left_hand_P := proj rig.left_hand
  if left_hand_P.z < 0 then setVisible false st else
  let left_hip_P := proj rig.left_hip
  if left_hip_P.z < 0 then setVisible false st else
  let left_foot_P := proj rig.left_foot
  if left_foot_P.z < 0 then setVisible false st else
  setVisible true
    { st with
        box0 := updateLineFromPoints st.box0 ⟨TL_P.x, TL_P.y⟩ ⟨TR_P.x, TR_P.y⟩
        box1 := updateLineFromPoints st.box1 ⟨TR_P.x, TR_P.y⟩ ⟨BR_P.x, BR_P.y⟩
        box2 := updateLineFromPoints st.box2 ⟨BR_P.x, BR_P.y⟩ ⟨BL_P.x, BL_P.y⟩
        box3 := updateLineFromPoints st.box3 ⟨BL_P.x, BL_P.y⟩ ⟨TL_P.x, TL_P.y⟩
        bone0 := updateLineFromPoints st.bone0 ⟨face_P.x, face_P.y⟩
          ⟨neck_P.x, neck_P.y⟩
        bone1 := updateLineFromPoints st.bone1 ⟨neck_P.x, neck_P.y⟩
          ⟨waist_P.x, waist_P.y⟩
        bone2 := updateLineFromPoints st.bone2 ⟨neck_P.x, neck_P.y⟩
          ⟨right_shoulder_P.x, right_shoulder_P.y⟩
        bone3 := updateLineFromPoints st.bone3
          ⟨right_shoulder_P.x, right_shoulder_P.y⟩
          ⟨right_hand_P.x, right_hand_P.y⟩
        bone4 := updateLineFromPoints st.bone4 ⟨waist_P.x, waist_P.y⟩
          ⟨right_hip_P.x, right_hip_P.y⟩
        bone5 := updateLineFromPoints st.bone5
          ⟨right_hip_P.x, right_hip_P.y⟩ ⟨right_foot_P.x, right_foot_P.y⟩
        bone6 := updateLineFromPoints st.bone6 ⟨neck_P.x, neck_P.y⟩
          ⟨left_shoulder_P.x, left_shoulder_P.y⟩
        bone7 := updateLineFromPoints st.bone7
          ⟨left_shoulder_P.x, left_shoulder_P.y⟩
          ⟨left_hand_P.x, left_hand_P.y⟩
        bone8 := updateLineFromPoints st.bone8 ⟨waist_P.x, waist_P.y⟩
          ⟨left_hip_P.x, left_hip_P.y⟩
        bone9 := updateLineFromPoints st.bone9
          ⟨left_hip_P.x, left_hip_P.y⟩ ⟨left_foot_P.x, left_foot_P.y⟩
        containerPos := ⟨0, T_P.x, 0, T_P.y - contentSizeY⟩
        dataText := ⟨Int.floor C_P.z, health, maxHealth,
          Int.floor (health / maxHealth * 100)⟩ }

end ESP

/-! ## Claim C1 -/

/-- C1 (amended): if any of the 17 rig points that `render()` actually
projects (the box points except the bottom centre `B`, plus all 11
skeleton joints) has depth `< 0`, then `render` only marks the 14 line
frames and the label container invisible: every geometry field
(position, size, rotation, label position, label text) is left exactly
as it was. -/
theorem c1_behind_camera_hides_overlay (proj : Vec3R → Vec3R)
    (rig : RigWorld) (health maxHealth contentSizeY : ℝ) (st : EspState)
    (h : (proj rig.C).z < 0 ∨ (proj rig.T).z < 0 ∨ (proj rig.BL).z < 0 ∨
      (proj rig.BR).z < 0 ∨ (proj rig.TL).z < 0 ∨ (proj rig.TR).z < 0 ∨
      (proj rig.face).z < 0 ∨ (proj rig.neck).z < 0 ∨
      (proj rig.waist).z < 0 ∨ (proj rig.right_shoulder).z < 0 ∨
      (proj rig.right_hand).z < 0 ∨ (proj rig.right_hip).z < 0 ∨
      (proj rig.right_foot).z < 0 ∨ (proj rig.left_shoulder).z < 0 ∨
      (proj rig.left_hand).z < 0 ∨ (proj rig.left_hip).z < 0 ∨
      (proj rig.left_foot).z < 0) :
    ESP.render proj rig health maxHealth contentSizeY st =
      ESP.setVisible false st ∧
    (ESP.render proj rig health maxHealth contentSizeY st).box0 =
      { st.box0 with visible := false } ∧
    (ESP.render proj rig health maxHealth contentSizeY st).box1 =
      { st.box1 with visible := false } ∧
    (ESP.render proj rig health maxHealth contentSizeY st).box2 =
      { st.box2 with visible := false } ∧
    (ESP.render proj rig health maxHealth contentSizeY st).box3 =
      { st.box3 with visible := false } ∧
    (ESP.render proj rig health maxHealth contentSizeY st).bone0 =
      { st.bone0 with visible := false } ∧
    (ESP.render proj rig health maxHealth contentSizeY st).bone1 =
      { st.bone1 with visible := false } ∧
    (ESP.render proj rig health maxHealth contentSizeY st).bone2 =
      { st.bone2 with visible := false } ∧
    (ESP.render proj rig health maxHealth contentSizeY st).bone3 =
      { st.bone3 with visible := false } ∧
    (ESP.render proj rig health maxHealth contentSizeY st).bone4 =
      { st.bone4 with visible := false } ∧
    (ESP.render proj rig health maxHealth contentSizeY st).bone5 =
      { st.bone5 with visible := false } ∧
    (ESP.render proj rig health maxHealth contentSizeY st).bone6 =
      { st.bone6 with visible := false } ∧
    (ESP.render proj rig health maxHealth contentSizeY st).bone7 =
      { st.bone7 with visible := false } ∧
    (ESP.render proj rig health maxHealth contentSizeY st).bone8 =
      { st.bone8 with visible := false } ∧
    (ESP.render proj rig health maxHealth contentSizeY st).bone9 =
      { st.bone9 with visible := false } ∧
    (ESP.render proj rig health maxHealth contentSizeY st).containerVisible =
      false ∧
    (ESP.render proj rig health maxHealth contentSizeY st).containerPos =
      st.containerPos ∧
    (ESP.render proj rig health maxHealth contentSizeY st).dataText =
      st.dataText := by
  have hmain : ESP.render proj rig health maxHealth contentSizeY st =
      ESP.setVisible false st := by
    simp only [ESP.render]
    by_cases h1 : (proj rig.C).z < 0
    · exact if_pos h1
    rw [if_neg h1]
    by_cases h2 : (proj rig.T).z < 0
    · exact if_pos h2
    rw [if_neg h2]
    by_cases h3 : (proj rig.BL).z < 0
    · exact if_pos h3
    rw [if_neg h3]
    by_cases h4 : (proj rig.BR).z < 0
    · exact if_pos h4
    rw [if_neg h4]
    by_cases h5 : (proj rig.TL).z < 0
    · exact if_pos h5
    rw [if_neg h5]
    by_cases h6 : (proj rig.TR).z < 0
    · exact if_pos h6
    rw [if_neg h6]
    by_cases h7 : (proj rig.face).z < 0
    · exact if_pos h7
    rw [if_neg h7]
    by_cases h8 : (proj rig.neck).z < 0
    · exact if_pos h8
    rw [if_neg h8]
    by_cases h9 : (proj rig.waist).z < 0
    · exact if_pos h9
    rw [if_neg h9]
    by_cases h10 : (proj rig.right_shoulder).z < 0
    · exact if_pos h10
    rw [if_neg h10]
    by_cases h11 : (proj rig.right_hand).z < 0
    · exact if_pos h11
    rw [if_neg h11]
    by_cases h12 : (proj rig.right_hip).z < 0
    · exact if_pos h12
    rw [if_neg h12]
    by_cases h13 : (proj rig.right_foot).z < 0
    · exact if_pos h13
    rw [if_neg h13]
    by_cases h14 : (proj rig.left_shoulder).z < 0
    · exact if_pos h14
    rw [if_neg h14]
    by_cases h15 : (proj rig.left_hand).z < 0
    · exact if_pos h15
    rw [if_neg h15]
    by_cases h16 : (proj rig.left_hip).z < 0
    · exact if_pos h16
    rw [if_neg h16]
    by_cases h17 : (proj rig.left_foot).z < 0
    · exact if_pos h17
    rcases h with h | h | h | h | h | h | h | h | h | h | h | h | h | h |
      h | h | h <;> exact absurd h (by assumption)
  refine ⟨hmain, ?_, ?_, ?_, ?_, ?_, ?_, ?_, ?_, ?_, ?_, ?_, ?_, ?_, ?_,
      ?_, ?_, ?_⟩ <;> rw [hmain] <;> rfl

/-- The identity camera: the viewport point of `v` is `v` itself, so
the depth of a world point is its `z` coordinate. -/
noncomputable def projId : Vec3R → Vec3R := fun v => v

/-- A rig whose bottom-centre box point `B` is behind the camera
(depth `-1`) while all 17 points that `render` projects are in front
(depth `1`). -/
noncomputable def rigOnlyBBehind : RigWorld :=
  { C := ⟨0, 0, 1⟩
    T := ⟨0, 0, 1⟩
    B := ⟨0, 0, -1⟩
    BL := ⟨0, 0, 1⟩
    BR := ⟨0, 0, 1⟩
    TL := ⟨0, 0, 1⟩
    TR := ⟨0, 0, 1⟩
    face := ⟨0, 0, 1⟩
    neck := ⟨0, 0, 1⟩
    waist := ⟨0, 0, 1⟩
    right_shoulder := ⟨0, 0, 1⟩
    right_hand := ⟨0, 0, 1⟩
    right_hip := ⟨0, 0, 1⟩
    right_foot := ⟨0, 0, 1⟩
    left_shoulder := ⟨0, 0, 1⟩
    left_hand := ⟨0, 0, 1⟩
    left_hip := ⟨0, 0, 1⟩
    left_foot := ⟨0, 0, 1⟩ }

/-- As `rigOnlyBBehind`, but with the box centre `C` behind the
camera. -/
noncomputable def rigCBehind : RigWorld :=
  { rigOnlyBBehind with B := ⟨0, 0, 1⟩, C := ⟨0, 0, -1⟩ }

/-- An arbitrary concrete screen state (all frames hidden at the
origin). -/
noncomputable def st0 : EspState :=
  { box0 := ⟨false, ⟨0, 0, 0, 0⟩, ⟨0, 1, 0, 2⟩, 0⟩
    box1 := ⟨false, ⟨0, 0, 0, 0⟩, ⟨0, 1, 0, 2⟩, 0⟩
    box2 := ⟨false, ⟨0, 0, 0, 0⟩, ⟨0, 1, 0, 2⟩, 0⟩
    box3 := ⟨false, ⟨0, 0, 0, 0⟩, ⟨0, 1, 0, 2⟩, 0⟩
    bone0 := ⟨false, ⟨0, 0, 0, 0⟩, ⟨0, 1, 0, 1⟩, 0⟩
    bone1 := ⟨false, ⟨0, 0, 0, 0⟩, ⟨0, 1, 0, 1⟩, 0⟩
    bone2 := ⟨false, ⟨0, 0, 0, 0⟩, ⟨0, 1, 0, 1⟩, 0⟩
    bone3 := ⟨false, ⟨0, 0, 0, 0⟩, ⟨0, 1, 0, 1⟩, 0⟩
    bone4 := ⟨false, ⟨0, 0, 0, 0⟩, ⟨0, 1, 0, 1⟩, 0⟩
    bone5 := ⟨false, ⟨0, 0, 0, 0⟩, ⟨0, 1, 0, 1⟩, 0⟩
    bone6 := ⟨false, ⟨0, 0, 0, 0⟩, ⟨0, 1, 0, 1⟩, 0⟩
    bone7 := ⟨false, ⟨0, 0, 0, 0⟩, ⟨0, 1, 0, 1⟩, 0⟩
    bone8 := ⟨false, ⟨0, 0, 0, 0⟩, ⟨0, 1, 0, 1⟩, 0⟩
    bone9 := ⟨false, ⟨0, 0, 0, 0⟩, ⟨0, 1, 0, 1⟩, 0⟩
    containerVisible := false
    containerPos := ⟨0, 0, 0, 0⟩
    dataText := ⟨0, 0, 0, 0⟩ }

/-- C1, counterexample: the box's bottom-centre point `B` is one of the
18 rig points, and here it projects with depth `-1 < 0`; yet `render`
renders the overlay (it is made visible), because line 382 never
projects `B`.  The claim's "projects each of the 7 box points / hides
on any of the 18" is false of the code. -/
theorem c1_b_point_not_projected :
    (projId rigOnlyBBehind.B).z < 0 ∧
    (ESP.render projId rigOnlyBBehind 100 100 14 st0).containerVisible =
      true ∧
    (ESP.render projId rigOnlyBBehind 100 100 14 st0).box0.visible =
      true := by
  refine ⟨by norm_num [projId, rigOnlyBBehind], ?_, ?_⟩ <;>
    norm_num [ESP.render, projId, rigOnlyBBehind, ESP.setVisible]

/-- C1 witness: a rig whose box centre `C` is behind the camera is
hidden without any geometry update. -/
theorem c1_behind_camera_hides_overlay_witness :
    ESP.render projId rigCBehind 100 100 14 st0 =
      ESP.setVisible false st0 ∧
    (ESP.render projId rigCBehind 100 100 14 st0).containerPos =
      st0.containerPos ∧
    (ESP.render projId rigCBehind 100 100 14 st0).dataText =
      st0.dataText :=
  have h := c1_behind_camera_hides_overlay projId rigCBehind 100 100 14 st0
    (Or.inl (by norm_num [projId, rigCBehind, rigOnlyBBehind]))
  ⟨h.1, h.2.2.2.2.2.2.2.2.2.2.2.2.2.2.2.2.1, h.2.2.2.2.2.2.2.2.2.2.2.2.2.2.2.2.2⟩

/-! ## The frame tick (lines 514–517) -/

/-- The `RenderStepped` handler body:
`for (const [_, instance] of instances) instance.render();`
There is no error guard, so a raise from one `render()` aborts the
handler.  `renderFails o` says whether overlay `o`'s render raises this
frame; the result is the list of overlays whose `render()` was invoked,
in iteration order, and whether an error escaped. -/
def runFrame {ι : Type} (renderFails : ι → Bool) : List ι → List ι × Bool
  | [] => ([], false)
  | o :: rest =>
    if renderFails o then ([o], true)
    else
      let r := runFrame renderFails rest
      (o :: r.1, r.2)

/-- C9, counterexample: with overlays `[0, 1]` where overlay `0`'s
render raises, overlay `1`'s render is never invoked that frame — the
failure is not isolated. -/
theorem c9_failure_stops_frame :
    runFrame (fun i : Nat => i == 0) [0, 1] = ([0], true) ∧
    1 ∉ (runFrame (fun i : Nat => i == 0) [0, 1]).1 := by
  decide

/-- C9 (amended): the tick invokes `render()` in iteration order up to
and including the first overlay whose render raises; the overlays after
it are not rendered that frame.  Only when no render raises is every
overlay rendered. -/
theorem c9_frame_order {ι : Type} (renderFails : ι → Bool) :
    (∀ l : List ι, (∀ o ∈ l, renderFails o = false) →
      runFrame renderFails l = (l, false)) ∧
    (∀ (as : List ι) (z : ι) (bs : List ι),
      (∀ a ∈ as, renderFails a = false) → renderFails z = true →
      runFrame renderFails (as ++ z :: bs) = (as ++ [z], true)) := by
  constructor
  · intro l
    induction l with
    | nil => intro _; rfl
    | cons o rest ih =>
      intro hok
      rw [runFrame]
      simp [hok o (by simp), ih (fun x hx => hok x (by simp [hx]))]
  · intro as z bs
    induction as with
    | nil =>
      intro _ hz
      simp [runFrame, hz]
    | cons a as ih =>
      intro hok hz
      rw [List.cons_append, runFrame]
      simp only [hok a (by simp), Bool.false_eq_true, if_false, ite_false]
      rw [ih (fun x hx => hok x (by simp [hx])) hz]
      simp

/-- C9 witness: with overlays `[1, 0, 2]` and overlay `0` raising,
exactly `1` and `0` are rendered. -/
theorem c9_frame_order_witness :
    runFrame (fun i : Nat => i == 0) [1, 0, 2] = ([1, 0], true) :=
  (c9_frame_order (fun i : Nat => i == 0)).2 [1] 0 [2] (by decide) rfl

/-! ## Entity tracking (constructor lines 168–177, wiring
lines 504–512)

Each `CharacterAdded` event delivers a fresh character model, for which
`new ESP(character)` is run once: the constructor registers the overlay
(`instances.set(entity, this)`, line 171) and subscribes to
`AncestryChanged`, whose handler destroys the overlay when the entity
loses its ancestry; the bin callback then runs
`instances.delete(entity)` (line 172).  We model this as a transition
system over spawn/remove events, with entities numbered in spawn
order so that spawned entities are fresh. -/

structure OverlayRec where
  id : Nat
  entity : Nat
  live : Bool
deriving DecidableEq, Repr

structure World where
  nextEntity : Nat
  present : List Nat
  registry : Nat → Option Nat
  overlays : List OverlayRec

inductive Event where
  | spawn
  | remove (e : Nat)

def step (w : World) : Event → World
  | .spawn =>
    let e := w.nextEntity
    let oid := w.overlays.length
    { nextEntity := e + 1
      present := e :: w.present
      registry := fun x => if x = e then some oid else w.registry x
      overlays := w.overlays ++ [⟨oid, e, true⟩] }
  | .remove e =>
    if e ∈ w.present then
      { nextEntity := w.nextEntity
        present := w.present.erase e
        registry := fun x => if x = e then none else w.registry x
        overlays := w.overlays.map fun o =>
          if o.entity = e then { o with live := false } else o }
    else w

def World.init : World := ⟨0, [], fun _ => none, []⟩

inductive Reachable : World → Prop where
  | init : Reachable World.init
  | step {w : World} (ev : Event) : Reachable w → Reachable (step w ev)

/-- The tracking invariant. -/
def Inv (w : World) : Prop :=
  (∀ e ∈ w.present, e < w.nextEntity) ∧
  w.present.Nodup ∧
  (∀ e, (w.registry e).isSome ↔ e ∈ w.present) ∧
  (∀ o ∈ w.overlays, o.entity < w.nextEntity) ∧
  (∀ o ∈ w.overlays, o.live = true ↔ o.entity ∈ w.present) ∧
  (∀ o o', o ∈ w.overlays → o' ∈ w.overlays → o.entity = o'.entity →
    o = o')

theorem inv_init : Inv World.init := by
  refine ⟨?_, ?_, ?_, ?_, ?_, ?_⟩ <;> simp [World.init]

theorem inv_step {w : World} (ev : Event) (h : Inv w) : Inv (step w ev) := by
  obtain ⟨hlt, hnd, hreg, holt, holive, houniq⟩ := h
  cases ev with
  | spawn =>
    refine ⟨?_, ?_, ?_, ?_, ?_, ?_⟩
    · intro e he
      simp only [step, List.mem_cons] at he
      rcases he with rfl | he
      · simp [step]
      · have := hlt e he
        simp only [step]
        omega
    · simp only [step]
      refine List.Nodup.cons ?_ hnd
      intro hmem
      exact absurd (hlt _ hmem) (by omega)
    · intro e
      simp only [step, List.mem_cons]
      by_cases he : e = w.nextEntity
      · simp [he]
      · simp [he, hreg e]
    · intro o ho
      simp only [step, List.mem_append, List.mem_singleton] at ho
      rcases ho with ho | rfl
      · have := holt o ho
        simp only [step]
        omega
      · simp [step]
    · intro o ho
      simp only [step, List.mem_append, List.mem_singleton] at ho
      simp only [step, List.mem_cons]
      rcases ho with ho | rfl
      · have hne : o.entity ≠ w.nextEntity := by
          have := holt o ho
          omega
        simp only [hne, false_or]
        exact holive o ho
      · simp
    · intro o o' ho ho'
      simp only [step, List.mem_append, List.mem_singleton] at ho ho'
      rcases ho with ho | rfl <;> rcases ho' with ho' | rfl
      · exact houniq o o' ho ho'
      · intro he
        exact absurd (holt o ho) (by simp at he ⊢; omega)
      · intro he
        exact absurd (holt o' ho') (by simp at he ⊢; omega)
      · intro _
        rfl
  | remove e =>
    by_cases hp : e ∈ w.present
    · simp only [step, if_pos hp]
      refine ⟨?_, ?_, ?_, ?_, ?_, ?_⟩
      · intro x hx
        exact hlt x (List.mem_of_mem_erase hx)
      · exact hnd.erase e
      · intro x
        by_cases hx : x = e
        · subst hx
          simp [hnd.not_mem_erase]
        · simp only [hx, if_false, ite_false]
          rw [hreg x, List.mem_erase_of_ne hx]
      · intro o ho
        simp only [List.mem_map] at ho
        obtain ⟨p, hp', rfl⟩ := ho
        have h1 := holt p hp'
        by_cases hpe : p.entity = e <;> simp [hpe] <;>
          simp [hpe] at h1 <;> exact h1
      · intro o ho
        simp only [List.mem_map] at ho
        obtain ⟨p, hp', rfl⟩ := ho
        by_cases hpe : p.entity = e
        · simp [hpe, hnd.not_mem_erase]
        · simp only [hpe, ite_false, if_false]
          rw [holive p hp', List.mem_erase_of_ne hpe]
      · intro o o' ho ho'
        simp only [List.mem_map] at ho ho'
        obtain ⟨p, hp1, rfl⟩ := ho
        obtain ⟨q, hq1, rfl⟩ := ho'
        intro he
        have hpq : p.entity = q.entity := by
          by_cases h1 : p.entity = e <;> by_cases h2 : q.entity = e <;>
            simp [h1, h2] at he <;> simp [h1, h2, he]
        have := houniq p q hp1 hq1 hpq
        subst this
        rfl
    · simpa [step, if_neg hp] using
        ⟨hlt, hnd, hreg, holt, holive, houniq⟩

theorem reachable_inv {w : World} (h : Reachable w) : Inv w := by
  induction h with
  | init => exact inv_init
  | step ev _ ih => exact inv_step ev ih

/-- C8: in every reachable tracking state, the Registry holds at most
one live overlay per entity (distinct overlays never share a live
entity), and an entity has a Registry entry exactly when it is
currently present and tracked. -/
theorem c8_registry_invariant (w : World) (hw : Reachable w) :
    (∀ o o', o ∈ w.overlays → o' ∈ w.overlays → o.live = true →
      o'.live = true → o.entity = o'.entity → o = o') ∧
    (∀ e, (∃ i, w.registry e = some i) ↔ e ∈ w.present) := by
  obtain ⟨-, -, hreg, -, -, huniq⟩ := reachable_inv hw
  refine ⟨fun o o' ho ho' _ _ he => huniq o o' ho ho' he, fun e => ?_⟩
  rw [← hreg e, Option.isSome_iff_exists]

/-- C8 witness: after one spawn, entity `0` is present and has a
Registry entry. -/
theorem c8_registry_invariant_witness :
    (∃ i, (step World.init Event.spawn).registry 0 = some i) ↔
      0 ∈ (step World.init Event.spawn).present :=
  (c8_registry_invariant (step World.init Event.spawn)
    (Reachable.step Event.spawn Reachable.init)).2 0

end Freesp
